import Mathlib

/-!
Verification development for the stock-dashboard script (`src/app.py`).

The script fetches per-symbol OHLCV series, computes a daily percent-change
series with pandas `pct_change`, builds a latest-row snapshot table, and
exports it as CSV.  Numeric values are modelled as exact rationals; the
non-finite results of pandas division by zero (NaN, +inf, -inf) are modelled
by an explicit value type `PctVal`.  Dates are modelled as naturals.
-/

namespace App

/-- A ticker symbol (opaque string). -/
abbrev Symbol := String

/-- One trading day's row for one symbol, as delivered by the provider
(`yf.download`): date index plus Open/High/Low/Close/Volume columns. -/
structure DatedRecord where
  date : Nat
  open_ : ℚ
  high : ℚ
  low : ℚ
  close : ℚ
  volume : ℚ
  deriving Repr, DecidableEq

/-- A per-symbol series: ordered rows of the provider DataFrame `data[sym]`. -/
abbrev SymbolSeries := List DatedRecord

/-- Result of one percent-change cell: pandas produces a float, which is
either finite or one of NaN / +inf / -inf (division by zero). -/
inductive PctVal where
  | num (q : ℚ)
  | nan
  | posInf
  | negInf
  deriving Repr, DecidableEq

/-- Whether a percent-change cell is a finite number. -/
def PctVal.isFinite : PctVal → Bool
  | .num _ => true
  | _ => false

/-- One step of pandas `pct_change() * 100`:
`(cur - prev) / prev * 100`, with IEEE division-by-zero semantics when
`prev = 0` (`cur > 0` gives +inf, `cur < 0` gives -inf, `cur = 0` gives NaN). -/
def pctChange (prev cur : ℚ) : PctVal :=
  if prev = 0 then
    if cur > 0 then .posInf
    else if cur < 0 then .negInf
    else .nan
  else
    .num ((cur - prev) / prev * 100)

/-- The cells of `pct_change` after the first: elementwise change of each
value against its predecessor. -/
def pctRest (prev : ℚ) : List ℚ → List PctVal
  | [] => []
  | c :: rest => pctChange prev c :: pctRest c rest

/-- `data[sym]["Close"].pct_change() * 100` (src/app.py line 74): a series of
the SAME length as the input, whose first cell is NaN and whose cell `i`
(for `i ≥ 1`) is `(close[i] - close[i-1]) / close[i-1] * 100`. -/
def pct (closes : List ℚ) : List PctVal :=
  match closes with
  | [] => []
  | c :: rest => PctVal.nan :: pctRest c rest

/-- The closing-price column of a series. -/
def closeCol (series : SymbolSeries) : List ℚ :=
  series.map (·.close)

/-- The date index of a series. -/
def dateCol (series : SymbolSeries) : List Nat :=
  series.map (·.date)

/-- The data handed to the percent-change chart for one symbol
(src/app.py lines 74-75): x = the full date index, y = the pct series,
zipped pointwise. -/
def derivedSeries (series : SymbolSeries) : List (Nat × PctVal) :=
  (dateCol series).zip (pct (closeCol series))

/-- Round a rational to the nearest integer, ties to even: the behaviour of
Python's built-in `round` (and numpy's) on the exactly-representable values
this model carries. -/
def roundHalfEven (q : ℚ) : ℤ :=
  let f : ℤ := ⌊q⌋
  let r : ℚ := q - f
  if r < 1/2 then f
  else if 1/2 < r then f + 1
  else if f % 2 = 0 then f else f + 1

/-- `round(x, 2)` as used in the snapshot build (src/app.py lines 108-111):
round to 2 decimal places, ties to even. -/
def round2 (q : ℚ) : ℚ :=
  (roundHalfEven (q * 100) : ℚ) / 100

/-- Python `int()` applied to a float value: truncation toward zero
(src/app.py line 112). -/
def pyInt (q : ℚ) : ℤ :=
  if 0 ≤ q then ⌊q⌋ else ⌈q⌉

/-- One row of the snapshot table. -/
structure SnapshotRow where
  symbol : Symbol
  latest : ℚ
  open_ : ℚ
  high : ℚ
  low : ℚ
  volume : ℤ
  deriving Repr, DecidableEq

/-- One iteration of the snapshot loop (src/app.py lines 105-112):
`data[sym].iloc[-1]` takes the last row — and raises `IndexError` when the
series is empty, modelled as `none`; otherwise the appended row holds the
rounded prices and the truncated volume. -/
def snapshotRow (sym : Symbol) (series : SymbolSeries) : Option SnapshotRow :=
  (series.getLast?).map fun row =>
    { symbol := sym
      latest := round2 row.close
      open_ := round2 row.open_
      high := round2 row.high
      low := round2 row.low
      volume := pyInt row.volume }

/-- The snapshot table (src/app.py lines 96-114): one row appended per
requested symbol, in request order; an empty series makes `iloc[-1]` raise,
aborting the whole build (`none`). -/
def snapshot (data : Symbol → SymbolSeries) : List Symbol →
    Option (List SnapshotRow)
  | [] => some []
  | sym :: rest => do
    let row ← snapshotRow sym (data sym)
    let rows ← snapshot data rest
    pure (row :: rows)

/-- The fixed column order of `df_snapshot` (src/app.py lines 96-103),
which `to_csv` emits as the header row. -/
def csvHeader : List String :=
  ["Symbol", "Latest Price", "Opening Price", "High", "Low", "Volume"]

/-- One CSV data row: the cells of a snapshot row, in column order. -/
def csvRow (r : SnapshotRow) : List String :=
  [r.symbol, toString r.latest, toString r.open_, toString r.high,
   toString r.low, toString r.volume]

/-- `df_snapshot.to_csv(index=False)` (src/app.py line 118) as rows of
cells: the header row followed by one row per snapshot row. -/
def csvTable (rows : List SnapshotRow) : List (List String) :=
  csvHeader :: rows.map csvRow

/-- The CSV text: comma-joined cells, newline-joined rows. -/
def csvString (rows : List SnapshotRow) : String :=
  String.intercalate "\n" ((csvTable rows).map (String.intercalate ","))

/-- `csv_data` (src/app.py line 118): the CSV text encoded as UTF-8 bytes
(`.encode` with the utf-8 codec). -/
def csv_data (rows : List SnapshotRow) : ByteArray :=
  (csvString rows).toUTF8

/-- A user request: the sidebar state (src/app.py lines 20-27). -/
structure Request where
  symbols : List Symbol
  startDate : Nat
  endDate : Nat

/-- Outcome of one run of the script body (src/app.py lines 41-154). -/
inductive AppResult where
  | warning
  | invalidRequest
  | aborted
  | success (snap : List SnapshotRow) (csv : ByteArray)

/-- Whether a run surfaced an `InvalidRequest` error. -/
def AppResult.isInvalidRequest : AppResult → Bool
  | .invalidRequest => true
  | _ => false

/-- Number of provider calls one run performs (src/app.py lines 41-42):
`yf.download` is called exactly once whenever the symbol list is non-empty,
with no validation of the date range beforehand. -/
def fetchCount (req : Request) : Nat :=
  if req.symbols.isEmpty then 0 else 1

/-- The script body (src/app.py lines 41-154): with no symbols selected it
only warns; otherwise it fetches, charts, and builds the snapshot and its
CSV export.  There is no date-range check anywhere, so `invalidRequest` is
never produced. -/
def runApp (fetch : Request → Symbol → SymbolSeries) (req : Request) :
    AppResult :=
  if req.symbols.isEmpty then .warning
  else
    let data := fetch req
    match snapshot data req.symbols with
    | none => .aborted
    | some rows => .success rows (csv_data rows)

/-- Whether a run reached the snapshot/CSV outputs. -/
def AppResult.isSuccess : AppResult → Bool
  | .success _ _ => true
  | _ => false

/-- The series-alignment step between the download (src/app.py line 42) and
its consumers (lines 46-112): the script applies no transformation at all —
every consumer indexes `data[sym]` directly, so the aligned mapping is the
raw mapping verbatim (no re-sort, no duplicate-date handling). -/
def align (raw : Symbol → SymbolSeries) : Symbol → SymbolSeries :=
  raw

/-- Executable check that a date list is strictly ascending with no
duplicates. -/
def strictlyAscending : List Nat → Bool
  | [] => true
  | [_] => true
  | a :: b :: rest => decide (a < b) && strictlyAscending (b :: rest)

/-- Modelled from the spec: the "half-up rounding" to 2 decimal places that
the spec's rounding law asserts for snapshot prices, stated for comparison
with the source's `round2`. -/
def roundHalfUpSpec (q : ℚ) : ℚ :=
  ((⌊q * 100 + 1/2⌋ : ℤ) : ℚ) / 100

/-- The raw-data preview (src/app.py line 46): the per-symbol frames tagged
with their symbol and concatenated, reading the raw mapping only. -/
def previewRows (data : Symbol → SymbolSeries) (symbols : List Symbol) :
    List (Symbol × DatedRecord) :=
  symbols.flatMap fun s => (data s).map fun r => (s, r)

/-- The percent-change derivation pass (src/app.py lines 73-75) as a
state-passing stage over the raw mapping: it builds a fresh derived series
per symbol (`pct_change` allocates a new pandas Series) and hands the raw
mapping back untouched. -/
def deriveStage (data : Symbol → SymbolSeries) (symbols : List Symbol) :
    List (Symbol × List (Nat × PctVal)) × (Symbol → SymbolSeries) :=
  (symbols.map fun s => (s, derivedSeries (data s)), data)

/-- The snapshot pass (src/app.py lines 105-112) as a state-passing stage
over the raw mapping: it only reads the last record of each series and hands
the raw mapping back untouched. -/
def snapshotStage (data : Symbol → SymbolSeries) (symbols : List Symbol) :
    Option (List SnapshotRow) × (Symbol → SymbolSeries) :=
  (snapshot data symbols, data)

/-! ### Helper lemmas -/

theorem pctRest_length (p : ℚ) (l : List ℚ) :
    (pctRest p l).length = l.length := by
  induction l generalizing p with
  | nil => rfl
  | cons c rest ih => simp [pctRest, ih]

theorem pct_length (closes : List ℚ) :
    (pct closes).length = closes.length := by
  cases closes with
  | nil => rfl
  | cons c rest => simp [pct, pctRest_length]

theorem pctRest_getD (l : List ℚ) (p : ℚ) (i : Nat) (d : PctVal)
    (h : i < l.length) :
    (pctRest p l).getD i d = pctChange ((p :: l).getD i 0) (l.getD i 0) := by
  induction l generalizing p i with
  | nil => simp at h
  | cons c rest ih =>
    cases i with
    | zero => simp [pctRest]
    | succ j =>
      simp only [List.length_cons, Nat.succ_lt_succ_iff] at h
      simpa [pctRest] using ih c j h

theorem pct_getD_succ (closes : List ℚ) (i : Nat) (d : PctVal)
    (h : i + 1 < closes.length) :
    (pct closes).getD (i + 1) d
      = pctChange (closes.getD i 0) (closes.getD (i + 1) 0) := by
  cases closes with
  | nil => simp at h
  | cons c rest =>
    simp only [List.length_cons, Nat.succ_lt_succ_iff] at h
    simpa [pct] using pctRest_getD rest c i d h

theorem zip_getD {α β : Type} (l1 : List α) (l2 : List β) (i : Nat)
    (d1 : α) (d2 : β) (h1 : i < l1.length) (h2 : i < l2.length) :
    (l1.zip l2).getD i (d1, d2) = (l1.getD i d1, l2.getD i d2) := by
  induction l1 generalizing l2 i with
  | nil => simp at h1
  | cons a as ih =>
    cases l2 with
    | nil => simp at h2
    | cons b bs =>
      cases i with
      | zero => simp
      | succ j =>
        simp only [List.length_cons, Nat.succ_lt_succ_iff] at h1 h2
        simpa using ih bs j h1 h2

theorem map_getD_lt {α β : Type} (f : α → β) (l : List α) (i : Nat)
    (d : β) (d₂ : α) (h : i < l.length) :
    (l.map f).getD i d = f (l.getD i d₂) := by
  induction l generalizing i with
  | nil => simp at h
  | cons a as ih =>
    cases i with
    | zero => simp
    | succ j =>
      simp only [List.length_cons, Nat.succ_lt_succ_iff] at h
      simpa using ih j h

theorem roundHalfEven_near (x : ℚ) :
    |(roundHalfEven x : ℚ) - x| ≤ 1 / 2 := by
  unfold roundHalfEven
  have h0 : (⌊x⌋ : ℚ) ≤ x := Int.floor_le x
  have h1 : x < (⌊x⌋ : ℚ) + 1 := Int.lt_floor_add_one x
  by_cases hlt : x - (⌊x⌋ : ℚ) < 1 / 2
  · simp only [hlt, if_true]
    rw [abs_le]
    constructor <;> linarith
  · by_cases hgt : 1 / 2 < x - (⌊x⌋ : ℚ)
    · simp only [hlt, hgt, if_false, if_true]
      push_cast
      rw [abs_le]
      constructor <;> linarith
    · have heq : x - (⌊x⌋ : ℚ) = 1 / 2 := le_antisymm (not_lt.mp hgt) (not_lt.mp hlt)
      by_cases hev : ⌊x⌋ % 2 = 0
      · simp only [hlt, hgt, hev, if_false, if_true]
        rw [abs_le]
        constructor <;> linarith
      · simp only [hlt, hgt, hev, if_false]
        push_cast
        rw [abs_le]
        constructor <;> linarith

theorem round2_near (q : ℚ) : |round2 q - q| ≤ 1 / 200 := by
  have h := roundHalfEven_near (q * 100)
  unfold round2
  have : (roundHalfEven (q * 100) : ℚ) / 100 - q
      = ((roundHalfEven (q * 100) : ℚ) - q * 100) / 100 := by ring
  rw [this, abs_div]
  have h100 : |(100 : ℚ)| = 100 := by norm_num
  rw [h100, div_le_iff₀ (show (0:ℚ) < 100 by norm_num)]
  linarith

theorem round2_two_decimals (q : ℚ) : (round2 q * 100).den = 1 := by
  unfold round2
  have : (roundHalfEven (q * 100) : ℚ) / 100 * 100
      = ((roundHalfEven (q * 100) : ℤ) : ℚ) := by
    field_simp
  rw [this, Rat.intCast_den]

theorem snapshot_none_of_empty (data : Symbol → SymbolSeries)
    (symbols : List Symbol) (s : Symbol) (hs : s ∈ symbols)
    (he : data s = []) : snapshot data symbols = none := by
  induction symbols with
  | nil => simp at hs
  | cons a rest ih =>
    rcases List.mem_cons.mp hs with h | h
    · subst h
      simp [snapshot, snapshotRow, he]
    · have hrest := ih h
      cases hrow : snapshotRow a (data a) with
      | none => simp [snapshot, hrow]
      | some row => simp [snapshot, hrow, hrest]

theorem snapshot_some_of_nonempty (data : Symbol → SymbolSeries)
    (symbols : List Symbol) (h : ∀ s ∈ symbols, data s ≠ []) :
    ∃ rows, snapshot data symbols = some rows ∧
      rows.map SnapshotRow.symbol = symbols ∧
      rows.length = symbols.length := by
  induction symbols with
  | nil => exact ⟨[], by simp [snapshot], by simp, by simp⟩
  | cons a rest ih =>
    have ha : data a ≠ [] := h a (List.mem_cons_self a rest)
    have hr : (data a).getLast? = some ((data a).getLast ha) :=
      List.getLast?_eq_getLast_of_ne_nil ha
    obtain ⟨rows, hrows, hsyms, hlen⟩ :=
      ih fun s hs => h s (List.mem_cons_of_mem a hs)
    refine ⟨{ symbol := a, latest := round2 ((data a).getLast ha).close,
              open_ := round2 ((data a).getLast ha).open_,
              high := round2 ((data a).getLast ha).high,
              low := round2 ((data a).getLast ha).low,
              volume := pyInt ((data a).getLast ha).volume } :: rows,
            ?_, ?_, ?_⟩
    · simp [snapshot, snapshotRow, hr, hrows]
    · simp [hsyms]
    · simp [hlen]

/-! ### Claim C2 -/

/-- C2 counterexample: on a 2-record series the code's derived series has
length 2 (not `max(0, n-1) = 1`), and its first entry pairs the FIRST date
with a NaN placeholder, so the first date is not absent. -/
theorem C2_counterexample :
    (derivedSeries [⟨1, 0, 0, 0, 100, 0⟩, ⟨2, 0, 0, 0, 110, 0⟩]).length ≠ 1 ∧
    (derivedSeries [⟨1, 0, 0, 0, 100, 0⟩, ⟨2, 0, 0, 0, 110, 0⟩]).getD 0
        (0, PctVal.num 0) = (1, PctVal.nan) := by
  decide

/-- C2 amended: for every SymbolSeries of length n the derived
percent-change series has length n (not n-1), with `derived[i].date =
series[i].date`; the first date IS present, paired with a NaN placeholder
(pandas `pct_change` keeps the full index and puts NaN at position 0). -/
theorem C2_amended (series : SymbolSeries) :
    (derivedSeries series).length = series.length ∧
    (∀ i, i < series.length →
      ((derivedSeries series).getD i (0, PctVal.nan)).1
        = (series.getD i ⟨0, 0, 0, 0, 0, 0⟩).date) ∧
    (∀ r rest, series = r :: rest →
      (derivedSeries series).getD 0 (0, PctVal.num 0) = (r.date, PctVal.nan)) := by
  refine ⟨?_, ?_, ?_⟩
  · simp [derivedSeries, dateCol, closeCol, pct_length]
  · intro i hi
    have h1 : i < (dateCol series).length := by simpa [dateCol] using hi
    have h2 : i < (pct (closeCol series)).length := by
      simpa [pct_length, closeCol] using hi
    rw [derivedSeries, zip_getD _ _ i 0 PctVal.nan h1 h2]
    exact map_getD_lt _ series i 0 ⟨0, 0, 0, 0, 0, 0⟩ hi
  · intro r rest hs
    subst hs
    simp [derivedSeries, dateCol, closeCol, pct]

/-- C2 witness: the amended theorem evaluated on a concrete 2-record
series. -/
theorem C2_witness :
    (derivedSeries [⟨1, 0, 0, 0, 100, 0⟩, ⟨2, 0, 0, 0, 110, 0⟩]).length = 2 ∧
    ((derivedSeries [⟨1, 0, 0, 0, 100, 0⟩, ⟨2, 0, 0, 0, 110, 0⟩]).getD 1
        (0, PctVal.nan)).1 = 2 := by
  have h := C2_amended [⟨1, 0, 0, 0, 100, 0⟩, ⟨2, 0, 0, 0, 110, 0⟩]
  exact ⟨by simpa using h.1, by simpa using h.2.1 1 (by decide)⟩

/-! ### Claim C5 -/

/-- C5 counterexample: closes `[100, 110, 99]` do NOT yield the derived
series `[+10, -10]`: the code's series has a leading NaN cell. -/
theorem C5_counterexample :
    pct [100, 110, 99] ≠ [PctVal.num 10, PctVal.num (-10)] := by
  intro h
  have hlen := congrArg List.length h
  simp [pct_length] at hlen

/-- C5 amended: for every position `i ≥ 1` with a nonzero previous close,
the derived cell is `(close[i] - close[i-1]) / close[i-1] * 100`; the
concrete closes `[100, 110, 99]` yield `[NaN, +10, -10]`, whose cells from
index 1 are `[+10, -10]` exactly. -/
theorem C5_amended :
    pct [100, 110, 99] = [PctVal.nan, PctVal.num 10, PctVal.num (-10)] ∧
    ∀ (closes : List ℚ) (i : Nat), 0 < i → i < closes.length →
      closes.getD (i - 1) 0 ≠ 0 →
      (pct closes).getD i PctVal.nan
        = PctVal.num ((closes.getD i 0 - closes.getD (i - 1) 0)
            / closes.getD (i - 1) 0 * 100) := by
  constructor
  · norm_num [pct, pctRest, pctChange]
  · intro closes i hi hlen hnz
    obtain ⟨j, rfl⟩ : ∃ j, i = j + 1 := ⟨i - 1, (Nat.succ_pred_eq_of_pos hi).symm⟩
    simp only [Nat.add_sub_cancel] at hnz ⊢
    rw [pct_getD_succ closes j _ hlen]
    unfold pctChange
    rw [if_neg hnz]

/-- C5 witness: the amended formula evaluated at the last cell of the
concrete scenario. -/
theorem C5_witness :
    (pct [100, 110, 99]).getD 2 PctVal.nan = PctVal.num (-10) := by
  have h := C5_amended.2 [100, 110, 99] 2 (by decide) (by decide) (by norm_num)
  rw [h]
  norm_num

/-! ### Claim C7 -/

/-- C7: when the previous close is zero, the percent-change cell at that
position is produced without error and is a non-finite value (NaN or ±inf),
present unchanged in the full-length derived series — no default such as
zero is substituted. -/
theorem C7_theorem (closes : List ℚ) (i : Nat) (hi : 0 < i)
    (hlen : i < closes.length) (hz : closes.getD (i - 1) 0 = 0) :
    (pct closes).length = closes.length ∧
    ((pct closes).getD i (PctVal.num 0)).isFinite = false := by
  refine ⟨pct_length closes, ?_⟩
  obtain ⟨j, rfl⟩ : ∃ j, i = j + 1 := ⟨i - 1, (Nat.succ_pred_eq_of_pos hi).symm⟩
  simp only [Nat.add_sub_cancel] at hz
  rw [pct_getD_succ closes j _ hlen, hz]
  unfold pctChange
  split_ifs with h1 h2 h3
  · rfl
  · rfl
  · rfl
  · exact absurd rfl h1

/-- C7 witness: the theorem evaluated on closes `[0, 5]`. -/
theorem C7_witness :
    (pct [0, 5]).length = 2 ∧
    ((pct [0, 5]).getD 1 (PctVal.num 0)).isFinite = false := by
  have h := C7_theorem [0, 5] 1 (by decide) (by decide) (by decide)
  simpa using h

/-! ### Claim C1 -/

/-- C1 counterexample: with symbols `["AAPL", "XXXX"]` where `"XXXX"` has
zero rows, the snapshot is NOT a one-row table — `iloc[-1]` raises on the
empty series and no snapshot is produced at all. -/
theorem C1_counterexample :
    (snapshot (fun s => if s = "AAPL" then [⟨1, 10, 12, 9, 11, 1000⟩] else [])
      ["AAPL", "XXXX"]).map List.length ≠ some 1 := by
  decide

/-- C1 amended: a requested symbol whose series contains zero rows is not
excluded from the snapshot; instead the snapshot build fails on the empty
series (`IndexError` from `iloc[-1]`) and the whole request aborts with no
snapshot output. -/
theorem C1_amended (fetch : Request → Symbol → SymbolSeries) (req : Request)
    (s : Symbol) (hs : s ∈ req.symbols) (he : fetch req s = []) :
    runApp fetch req = AppResult.aborted := by
  have hne : ¬req.symbols.isEmpty := by
    simp [List.isEmpty_iff, List.ne_nil_of_mem hs]
  unfold runApp
  rw [if_neg hne]
  simp only [snapshot_none_of_empty (fetch req) req.symbols s hs he]

/-- C1 witness: the amended theorem evaluated on the two-symbol scenario
with `"XXXX"` empty. -/
theorem C1_witness :
    runApp (fun _ s => if s = "AAPL" then [⟨1, 10, 12, 9, 11, 1000⟩] else [])
      ⟨["AAPL", "XXXX"], 0, 5⟩ = AppResult.aborted :=
  C1_amended _ _ "XXXX" (by decide) (by decide)

/-! ### Claim C8 -/

/-- C8 counterexample: with symbols `["MSFT", "XXXX"]` where `"XXXX"` is
empty, the snapshot rows are NOT the selection order restricted to non-empty
symbols (`["MSFT"]`): no snapshot is produced at all. -/
theorem C8_counterexample :
    (snapshot (fun s => if s = "MSFT" then [⟨3, 20, 22, 19, 21, 500⟩] else [])
      ["MSFT", "XXXX"]).map (List.map SnapshotRow.symbol) ≠ some ["MSFT"] := by
  decide

/-- C8 amended: when every requested symbol has a non-empty series, the
snapshot has exactly one row per symbol and the row order equals the user's
selection order (stable, not re-sorted); an empty series instead aborts the
whole build. -/
theorem C8_amended (data : Symbol → SymbolSeries) (symbols : List Symbol)
    (h : ∀ s ∈ symbols, data s ≠ []) :
    ∃ rows, snapshot data symbols = some rows ∧
      rows.map SnapshotRow.symbol = symbols := by
  obtain ⟨rows, h1, h2, _⟩ := snapshot_some_of_nonempty data symbols h
  exact ⟨rows, h1, h2⟩

/-- C8 witness: the amended theorem evaluated on two non-empty symbols. -/
theorem C8_witness :
    ∃ rows, snapshot (fun _ => [⟨1, 1, 1, 1, 1, 1⟩]) ["AAPL", "MSFT"]
        = some rows ∧
      rows.map SnapshotRow.symbol = ["AAPL", "MSFT"] :=
  C8_amended _ _ (by decide)

/-! ### Claim C3 -/

/-- C3 counterexample: with `start_date > end_date` the request does NOT
fail with InvalidRequest and the provider IS called: the script has no
date-range validation, fetches once, and produces output. -/
theorem C3_counterexample :
    (runApp (fun _ _ => [⟨1, 10, 12, 9, 11, 1000⟩])
      ⟨["AAPL"], 5, 1⟩).isInvalidRequest = false ∧
    fetchCount ⟨["AAPL"], 5, 1⟩ = 1 ∧
    (runApp (fun _ _ => [⟨1, 10, 12, 9, 11, 1000⟩])
      ⟨["AAPL"], 5, 1⟩).isSuccess = true := by
  refine ⟨rfl, rfl, rfl⟩

/-- C3 amended: the script never surfaces an InvalidRequest for any request
(there is no date validation), and whenever the symbol list is non-empty the
provider is called exactly once — even when `start_date > end_date`. -/
theorem C3_amended (fetch : Request → Symbol → SymbolSeries) (req : Request) :
    (runApp fetch req).isInvalidRequest = false ∧
    (req.symbols ≠ [] → fetchCount req = 1) := by
  constructor
  · unfold runApp
    by_cases hne : req.symbols.isEmpty
    · simp [hne, AppResult.isInvalidRequest]
    · rw [if_neg hne]
      cases hsnap : snapshot (fetch req) req.symbols <;>
        simp [hsnap, AppResult.isInvalidRequest]
  · intro hne
    unfold fetchCount
    rw [if_neg (by simp [List.isEmpty_iff, hne])]

/-- C3 witness: the amended theorem evaluated on a request with
`start_date = 5 > end_date = 1`. -/
theorem C3_witness :
    (runApp (fun _ _ => []) ⟨["AAPL"], 5, 1⟩).isInvalidRequest = false ∧
    fetchCount ⟨["AAPL"], 5, 1⟩ = 1 := by
  have h := C3_amended (fun _ _ => []) ⟨["AAPL"], 5, 1⟩
  exact ⟨h.1, h.2 (by decide)⟩

/-! ### Claim C4 -/

/-- C4 counterexample: a record whose close is 0.125 is rounded to 0.12 by
the code (Python `round`, ties to even), while the spec's half-up rounding
gives 0.13. -/
theorem C4_counterexample :
    (snapshotRow "AAPL" [⟨1, 1/8, 1/8, 1/8, 1/8, 7⟩]).map SnapshotRow.latest
        = some (3/25) ∧
    roundHalfUpSpec (1/8) = 13/100 ∧ (3/25 : ℚ) ≠ 13/100 := by
  refine ⟨?_, ?_, by norm_num⟩
  · simp only [snapshotRow, List.getLast?, Option.map_some]
    norm_num [round2, roundHalfEven]
    have hf : Int.fract ((25 : ℚ) / 2) = 1 / 2 := by
      rw [Int.fract]
      norm_num
    rw [hf]
    norm_num
  · norm_num [roundHalfUpSpec]

/-- C4 amended: every snapshot row from a non-empty series carries the
source's last-record prices rounded to exactly 2 decimal places with
round-half-to-even (Python `round`) — within 1/200 of the raw value and an
exact multiple of 1/100 — and its volume is the raw value truncated toward
zero (floor for non-negative values, ceiling for negative ones). -/
theorem C4_amended (sym : Symbol) (series : SymbolSeries) (r : DatedRecord)
    (h : series.getLast? = some r) :
    ∃ row, snapshotRow sym series = some row ∧
      row.latest = round2 r.close ∧ row.open_ = round2 r.open_ ∧
      row.high = round2 r.high ∧ row.low = round2 r.low ∧
      row.volume = pyInt r.volume ∧
      (row.latest * 100).den = 1 ∧ |row.latest - r.close| ≤ 1/200 ∧
      (0 ≤ r.volume → row.volume = ⌊r.volume⌋) ∧
      (r.volume < 0 → row.volume = ⌈r.volume⌉) := by
  refine ⟨{ symbol := sym, latest := round2 r.close, open_ := round2 r.open_,
            high := round2 r.high, low := round2 r.low,
            volume := pyInt r.volume },
          by simp [snapshotRow, h], rfl, rfl, rfl, rfl, rfl,
          round2_two_decimals r.close, round2_near r.close, ?_, ?_⟩
  · intro h0
    simp [pyInt, h0]
  · intro h0
    simp [pyInt, not_le.mpr h0]

/-- C4 witness: the amended theorem evaluated on a one-record series. -/
theorem C4_witness :
    ∃ row, snapshotRow "AAPL"
        [(⟨1, 2, 3, 1, 5/2, 7/2⟩ : DatedRecord)] = some row ∧
      row.latest = round2 (5/2) ∧ row.open_ = round2 2 ∧
      row.high = round2 3 ∧ row.low = round2 1 ∧
      row.volume = pyInt (7/2) ∧
      (row.latest * 100).den = 1 ∧ |row.latest - 5/2| ≤ 1/200 ∧
      (0 ≤ (7/2 : ℚ) → row.volume = ⌊(7/2 : ℚ)⌋) ∧
      ((7/2 : ℚ) < 0 → row.volume = ⌈(7/2 : ℚ)⌉) :=
  C4_amended "AAPL" [⟨1, 2, 3, 1, 5/2, 7/2⟩] ⟨1, 2, 3, 1, 5/2, 7/2⟩ rfl

/-! ### Claim C6 -/

/-- C6 counterexample: a provider series with out-of-order and duplicate
dates reaches downstream consumers exactly as delivered — not strictly
sorted and with the duplicate retained. -/
theorem C6_counterexample :
    strictlyAscending (dateCol (align
      (fun _ => [⟨2, 1, 1, 1, 1, 1⟩, ⟨1, 1, 1, 1, 1, 1⟩, ⟨1, 1, 1, 1, 1, 1⟩])
      "AAPL")) = false ∧
    dateCol (align
      (fun _ => [⟨2, 1, 1, 1, 1, 1⟩, ⟨1, 1, 1, 1, 1, 1⟩, ⟨1, 1, 1, 1, 1, 1⟩])
      "AAPL") = [2, 1, 1] := by
  exact ⟨rfl, rfl⟩

/-- C6 amended: the script performs no alignment at all — the series handed
to every downstream consumer is the provider's series verbatim, with no
re-sorting and no duplicate-date handling. -/
theorem C6_amended (raw : Symbol → SymbolSeries) (sym : Symbol) :
    align raw sym = raw sym :=
  rfl

/-! ### Claim C9 -/

/-- C9: the CSV export has a header row with the fixed column order
`Symbol, Latest Price, Opening Price, High, Low, Volume`, one 6-cell data
row per SnapshotRow in order, and the exported bytes are the UTF-8 encoding
of the CSV text. -/
theorem C9_theorem (rows : List SnapshotRow) :
    (csvTable rows).length = rows.length + 1 ∧
    (csvTable rows).getD 0 []
      = ["Symbol", "Latest Price", "Opening Price", "High", "Low", "Volume"] ∧
    (∀ cells ∈ csvTable rows, cells.length = 6) ∧
    (∀ i, i < rows.length →
      (csvTable rows).getD (i + 1) []
        = csvRow (rows.getD i ⟨"", 0, 0, 0, 0, 0⟩)) ∧
    csv_data rows = (csvString rows).toUTF8 := by
  refine ⟨by simp [csvTable], rfl, ?_, ?_, rfl⟩
  · intro cells hc
    simp only [csvTable, List.mem_cons, List.mem_map] at hc
    rcases hc with rfl | ⟨r, _, rfl⟩
    · rfl
    · rfl
  · intro i hi
    simp only [csvTable, List.getD_cons_succ]
    exact map_getD_lt csvRow rows i [] ⟨"", 0, 0, 0, 0, 0⟩ hi

/-- C9 witness: the theorem evaluated on a one-row snapshot. -/
theorem C9_witness :
    (csvTable [⟨"AAPL", 1, 2, 3, 4, 5⟩]).length = 2 ∧
    (csvRow (⟨"AAPL", 1, 2, 3, 4, 5⟩ : SnapshotRow)).length = 6 ∧
    (csvTable [⟨"AAPL", 1, 2, 3, 4, 5⟩]).getD 1 []
      = csvRow (⟨"AAPL", 1, 2, 3, 4, 5⟩ : SnapshotRow) := by
  have h := C9_theorem [⟨"AAPL", 1, 2, 3, 4, 5⟩]
  refine ⟨h.1, ?_, by simpa using h.2.2.2.1 0 (by decide)⟩
  exact h.2.2.1 (csvRow ⟨"AAPL", 1, 2, 3, 4, 5⟩)
    (List.mem_cons_of_mem _ (by simp))

/-! ### Claim C10 -/

/-- C10: deriving the percent-change series and building the snapshot leave
the raw per-symbol mapping unchanged — the derivation builds fresh series
and the snapshot only reads last records — so the raw-data preview and the
snapshot within one request are backed by the same raw mapping. -/
theorem C10_theorem (data : Symbol → SymbolSeries) (symbols : List Symbol) :
    (deriveStage data symbols).2 = data ∧
    (snapshotStage (deriveStage data symbols).2 symbols).2 = data ∧
    previewRows (snapshotStage (deriveStage data symbols).2 symbols).2 symbols
      = previewRows data symbols ∧
    (snapshotStage (deriveStage data symbols).2 symbols).1
      = snapshot data symbols :=
  ⟨rfl, rfl, rfl, rfl⟩

end App
